import Mathlib

/-!
# Verification of the XBIZocr repository

Shallow embedding of the two scripts of the repository:

* `app.py` — a Flask upload-and-OCR service built around the helper
  `extract_texts_from_predict` (a recursive flattener of the nested
  PaddleOCR result), `ocr_image_to_txt`, `allowed_filename` and the
  routes `upload_file` and `download`;
* `main.py` — a batch script that runs pytesseract over a folder of
  images and writes one consolidated output file.

Python strings are modelled as `List Char`; Python values occurring in
OCR results as the inductive `PyVal`.  External library functions
(PaddleOCR `predict`, werkzeug `secure_filename`, `json.dumps`,
pytesseract `image_to_string`) are parameters of the embedded
functions.
-/

namespace XBIZocr

/-- Python strings, modelled as lists of characters. -/
abbrev PyStr := List Char

/-- Shorthand turning a Lean string literal into a `PyStr`. -/
def S (s : String) : PyStr := s.data

/-- The whitespace test used by Python's `str.strip()` (ASCII part:
space, tab, newline, carriage return, vertical tab, form feed). -/
def isPyWS (c : Char) : Bool :=
  c = ' ' || c = '\t' || c = '\n' || c = '\r' || c = '\x0b' || c = '\x0c'

/-- Python `s.strip()`: remove whitespace from both ends. -/
def pyStrip (s : PyStr) : PyStr :=
  List.rdropWhile isPyWS (List.dropWhile isPyWS s)

/-- A Python value as it can occur in a PaddleOCR `predict()` result:
strings, numbers (`int` or `float` — the code only ever tests their
type, never their value, so one constructor suffices), lists, tuples,
dicts (iterated over their values, in insertion order) and any other
object (matched by no `isinstance` test in `rec`). -/
inductive PyVal where
  | str (s : PyStr)
  | num (n : Int)
  | list (xs : List PyVal)
  | tuple (xs : List PyVal)
  | dict (kvs : List (PyVal × PyVal))
  | other

namespace extractTexts

/-!  The inner function `rec` of `extract_texts_from_predict`
(`app.py` lines 45–107), written functionally: instead of appending to
the outer `texts` list, each call returns the strings it appends, in
order.  The single Python function is split into four mutually
recursive Lean functions: `recV` dispatches on the value's type,
`recSeq` is the body of the `isinstance(obj, (list, tuple))` branch,
`recList` is `for item in ...: rec(item)`, and `recD` is
`for v in obj.values(): rec(v)`. -/

mutual

/-- `rec(obj)` (`app.py` 45–107). -/
def recV : PyVal → List PyStr
  | .str s => if (pyStrip s).isEmpty then [] else [pyStrip s]
  | .num _ => []
  | .list xs => recSeq xs
  | .tuple xs => recSeq xs
  | .dict kvs => recD kvs
  | .other => []
termination_by v => sizeOf v
decreasing_by all_goals simp_wf

/-- Body of the `isinstance(obj, (list, tuple))` branch (`app.py`
55–95): first the `(text, confidence)` pattern, then the
`[box, (text, conf)]`-style second-element patterns, then the
fallback walk over all children. -/
def recSeq : List PyVal → List PyStr
  | [.str s, .num _] =>
      -- Pattern: (text, confidence)
      if (pyStrip s).isEmpty then [] else [pyStrip s]
  | _ :: .list (.str t :: _) :: _ =>
      if (pyStrip t).isEmpty then [] else [pyStrip t]
  | _ :: .list ys :: _ => recList ys
  | _ :: .tuple (.str t :: _) :: _ =>
      if (pyStrip t).isEmpty then [] else [pyStrip t]
  | _ :: .tuple ys :: _ => recList ys
  | a :: sec :: rest =>
      -- fallback: walk children
      recV a ++ recV sec ++ recList rest
  | [] => []
  | [x] => recV x
termination_by xs => sizeOf xs
decreasing_by
  all_goals simp_wf
  all_goals omega

/-- `for item in l: rec(item)`. -/
def recList : List PyVal → List PyStr
  | [] => []
  | x :: rest => recV x ++ recList rest
termination_by xs => sizeOf xs
decreasing_by
  all_goals simp_wf
  all_goals omega

/-- `for v in obj.values(): rec(v)`. -/
def recD : List (PyVal × PyVal) → List PyStr
  | [] => []
  | (_, v) :: rest => recV v ++ recD rest
termination_by kvs => sizeOf kvs
decreasing_by
  all_goals simp_wf
  all_goals omega

end

end extractTexts

/-- `extract_texts_from_predict(result)` (`app.py` 35–111): run the
recursive walk, then `[t for t in texts if t]`. -/
def extract_texts_from_predict (result : PyVal) : List PyStr :=
  (extractTexts.recV result).filter (fun t => !t.isEmpty)

/-!  ## The depth-first leaf sequence

`leavesV v` lists all string leaves of a `PyVal` in the order of the
depth-first, left-to-right walk (list and tuple elements in order,
dict values in insertion order).  It is the reference against which
the order of `extract_texts_from_predict`'s output is checked. -/

mutual

/-- All string leaves of a value, in depth-first left-to-right order. -/
def leavesV : PyVal → List PyStr
  | .str s => [s]
  | .num _ => []
  | .list xs => leavesL xs
  | .tuple xs => leavesL xs
  | .dict kvs => leavesD kvs
  | .other => []
termination_by v => sizeOf v
decreasing_by all_goals simp_wf

/-- Leaves of a sequence of values. -/
def leavesL : List PyVal → List PyStr
  | [] => []
  | x :: rest => leavesV x ++ leavesL rest
termination_by xs => sizeOf xs
decreasing_by
  all_goals simp_wf
  all_goals omega

/-- Leaves of the values of a dict. -/
def leavesD : List (PyVal × PyVal) → List PyStr
  | [] => []
  | (_, v) :: rest => leavesV v ++ leavesD rest
termination_by kvs => sizeOf kvs
decreasing_by
  all_goals simp_wf
  all_goals omega

end

/-- Strip every leaf and keep the non-empty results: the candidate
strings of a DFS walk, in DFS order. -/
def stripLeaves (l : List PyStr) : List PyStr :=
  (l.map pyStrip).filter (fun t => !t.isEmpty)

/-!  ## Termination of the recursive walk (C8)

The Python `rec` has no termination guarantee a priori; the faithful
transcription of a possibly non-terminating recursive procedure is a
fuel-indexed function that returns `none` when the fuel runs out.
`recVFuel` consumes one unit of fuel per call and otherwise mirrors
`rec` step by step; the sufficiency theorem shows that fuel equal to
the structural size of the input always suffices, which is exactly the
claim that `rec` only recurses on strictly smaller parts of the
structure. -/

namespace extractTexts

mutual

/-- Fuel-indexed transcription of `rec(obj)`. -/
def recVFuel : Nat → PyVal → Option (List PyStr)
  | 0, _ => none
  | fuel + 1, v =>
    match v with
    | .str s => some (if (pyStrip s).isEmpty then [] else [pyStrip s])
    | .num _ => some []
    | .list xs => recSeqFuel fuel xs
    | .tuple xs => recSeqFuel fuel xs
    | .dict kvs => recDFuel fuel kvs
    | .other => some []

/-- Fuel-indexed transcription of the list/tuple branch. -/
def recSeqFuel : Nat → List PyVal → Option (List PyStr)
  | 0, _ => none
  | fuel + 1, xs =>
    match xs with
    | [.str s, .num _] => some (if (pyStrip s).isEmpty then [] else [pyStrip s])
    | _ :: .list (.str t :: _) :: _ =>
        some (if (pyStrip t).isEmpty then [] else [pyStrip t])
    | _ :: .list ys :: _ => recListFuel fuel ys
    | _ :: .tuple (.str t :: _) :: _ =>
        some (if (pyStrip t).isEmpty then [] else [pyStrip t])
    | _ :: .tuple ys :: _ => recListFuel fuel ys
    | a :: sec :: rest => do
        let ra ← recVFuel fuel a
        let rs ← recVFuel fuel sec
        let rr ← recListFuel fuel rest
        pure (ra ++ rs ++ rr)
    | [] => some []
    | [x] => recVFuel fuel x

/-- Fuel-indexed transcription of `for item in l: rec(item)`. -/
def recListFuel : Nat → List PyVal → Option (List PyStr)
  | 0, _ => none
  | _ + 1, [] => some []
  | fuel + 1, x :: rest => do
      let rx ← recVFuel fuel x
      let rr ← recListFuel fuel rest
      pure (rx ++ rr)

/-- Fuel-indexed transcription of `for v in obj.values(): rec(v)`. -/
def recDFuel : Nat → List (PyVal × PyVal) → Option (List PyStr)
  | 0, _ => none
  | _ + 1, [] => some []
  | fuel + 1, (_, v) :: rest => do
      let rv ← recVFuel fuel v
      let rr ← recDFuel fuel rest
      pure (rv ++ rr)

end

end extractTexts

/-!  ## Path utilities

Models of the small parts of `pathlib` / `os.path` the scripts use,
for plain relative paths as the scripts produce them. -/

/-- Index of the last occurrence of `c`, if any. -/
def rfindIdx (c : Char) : PyStr → Option Nat
  | [] => none
  | a :: t =>
    match rfindIdx c t with
    | some i => some (i + 1)
    | none => if a = c then some 0 else none

/-- `PurePath.name`: the final path component. -/
def pathName (p : PyStr) : PyStr :=
  (p.reverse.takeWhile (fun c => c ≠ '/')).reverse

/-- `PurePath.suffix`: the extension of the final component, including
the dot; empty when the last dot is leading or trailing. -/
def pySuffix (p : PyStr) : PyStr :=
  let nm := pathName p
  match rfindIdx '.' nm with
  | some i => if 0 < i ∧ i + 1 < nm.length then nm.drop i else []
  | none => []

/-- `PurePath.with_suffix(".txt")` / `os.path` style: drop the current
suffix of the final component and append `.txt`. -/
def withSuffixTxt (p : PyStr) : PyStr :=
  p.take (p.length - (pySuffix p).length) ++ S ".txt"

/-- `os.path.join` / `PurePath.__truediv__` for one relative or
absolute component. -/
def pyPathJoin (a b : PyStr) : PyStr :=
  if b.head? = some '/' then b
  else if a = [] then b
  else if a.getLast? = some '/' then a ++ b
  else a ++ '/' :: b

/-!  ## The Flask service (`app.py`) -/

/-- `ALLOWED_EXTENSIONS` (`app.py` 19). -/
def ALLOWED_EXTENSIONS : List PyStr :=
  [S ".png", S ".jpg", S ".jpeg", S ".tiff", S ".bmp", S ".gif"]

/-- `allowed_filename(filename)` (`app.py` 31–33):
`Path(filename).suffix.lower() in ALLOWED_EXTENSIONS`. -/
def allowed_filename (filename : PyStr) : Bool :=
  ALLOWED_EXTENSIONS.contains ((pySuffix filename).map Char.toLower)

/-- A JSON scalar as the service puts into response bodies. -/
inductive JVal where
  | s (v : PyStr)
  | n (v : Nat)
deriving DecidableEq

/-- An HTTP response body: a `jsonify(...)` object (association list
in insertion order), the framework's default error page produced by
`abort(code)` (HTML, not JSON), or a file download produced by
`send_from_directory(directory, path, as_attachment=True)`. -/
inductive Body where
  | json (kvs : List (PyStr × JVal))
  | htmlErrorPage (code : Nat)
  | fileAttachment (dir name : PyStr)
deriving DecidableEq

/-- Whether a body is a JSON object. -/
def Body.isJson : Body → Bool
  | .json _ => true
  | _ => false

/-- An HTTP response: status code and body. -/
structure HttpResponse where
  status : Nat
  body : Body
deriving DecidableEq

/-- A multipart file field: its client-supplied filename and its raw
content (bytes, modelled as a character string). -/
structure FilePart where
  filename : PyStr
  content : PyStr
deriving DecidableEq

/-- A `POST /upload` request: the optional multipart field `file`. -/
structure UploadRequest where
  file : Option FilePart
deriving DecidableEq

/-- The outcome of `ocr_image_to_txt`: the path of the written text
file, the extracted text list, and the file writes performed
(path, content). -/
structure OcrRun where
  out_path : PyStr
  texts : List PyStr
  writes : List (PyStr × PyStr)
deriving DecidableEq

/-- The debug dump written when no text was extracted (`app.py`
145–151): a fixed header plus `json.dumps(result, ...)`, the latter an
external library function supplied as `dumps`. -/
def debugDump (dumps : PyVal → PyStr) (result : PyVal) : PyStr :=
  S "# No text extracted by parser. Raw predict() output below (JSON-ish):

"
    ++ dumps result

/-- `ocr_image_to_txt(ocr, image_path, out_path=None)` (`app.py`
113–161).  `predict` is the external `ocr.predict` (its exceptions are
`Except.error` with the exception text), `dumps` is `json.dumps`, and
`fileExists` is `Path.exists`.  Raises `FileNotFoundError` when the
image does not exist; otherwise writes exactly one text file: the
extracted lines joined by newlines, or a debug dump when nothing was
extracted. -/
def ocr_image_to_txt (predict : PyStr → Except PyStr PyVal)
    (dumps : PyVal → PyStr) (fileExists : PyStr → Bool)
    (image_path : PyStr) (out_path : Option PyStr) :
    Except PyStr OcrRun :=
  if !fileExists image_path then
    Except.error (S "Image not found: " ++ image_path)
  else
    match predict image_path with
    | Except.error e => Except.error e
    | Except.ok result =>
      let texts := extract_texts_from_predict result
      let out := out_path.getD (withSuffixTxt image_path)
      if texts.isEmpty then
        Except.ok ⟨out, [], [(out, debugDump dumps result)]⟩
      else
        Except.ok ⟨out, texts, [(out, List.intercalate (S "
") texts)]⟩

/-- `upload_file()` (`app.py` 183–247).  `sf` is werkzeug's external
`secure_filename`; `images_dir` is `IMAGES_DIR` (its absolute base
directory is runtime data).  Returns the response and the list of file
writes performed, in order; the image just saved exists when the OCR
step runs.  The text of the extension error message renders the Python
set `ALLOWED_EXTENSIONS` whose exact rendering is runtime data; only
the `error` key matters. -/
def upload_file (sf : PyStr → PyStr) (predict : PyStr → Except PyStr PyVal)
    (dumps : PyVal → PyStr) (images_dir : PyStr) (req : UploadRequest) :
    HttpResponse × List (PyStr × PyStr) :=
  match req.file with
  | none => (⟨400, Body.json [(S "error", JVal.s (S "no file part in request"))]⟩, [])
  | some file =>
    if file.filename = [] then
      (⟨400, Body.json [(S "error", JVal.s (S "no selected file"))]⟩, [])
    else
      let filename := sf file.filename
      if !allowed_filename filename then
        (⟨400, Body.json
          [(S "error", JVal.s (S "file extension not allowed. Allowed: .png .jpg .jpeg .tiff .bmp .gif"))]⟩,
         [])
      else
        let saved_path := pyPathJoin images_dir filename
        match ocr_image_to_txt predict dumps (fun _ => true) saved_path none with
        | Except.error e =>
            (⟨500, Body.json [(S "error", JVal.s (S "ocr_failed")),
                              (S "detail", JVal.s e)]⟩,
             [(saved_path, file.content)])
        | Except.ok run =>
            let base := [(S "image", JVal.s saved_path),
                         (S "txt_file", JVal.s run.out_path),
                         (S "text_lines_count", JVal.n run.texts.length),
                         (S "text_preview",
                          JVal.s (List.intercalate (S "
") (run.texts.take 20)))]
            let resp := if run.texts.isEmpty then
                base ++ [(S "warning",
                  JVal.s (S "No text extracted — debug dump saved in txt file."))]
              else base
            (⟨201, Body.json resp⟩, [(saved_path, file.content)] ++ run.writes)

/-- `download(filename)` (`app.py` 249–267): sanitize, 404 via
`abort(404)` (the framework's default HTML error page) when the file
does not exist, else stream it as an attachment. -/
def download (sf : PyStr → PyStr) (fileExists : PyStr → Bool)
    (images_dir filename : PyStr) : HttpResponse :=
  let safe := sf filename
  let file_path := pyPathJoin images_dir safe
  if !fileExists file_path then
    ⟨404, Body.htmlErrorPage 404⟩
  else
    ⟨200, Body.fileAttachment images_dir safe⟩

/-- `health()` (`app.py` 177–181). -/
def health : HttpResponse :=
  ⟨200, Body.json [(S "status", JVal.s (S "ok"))]⟩

/-!  ## The batch script (`main.py`) -/

/-- `folder_path` (`main.py` 5). -/
def folder_path : PyStr := S "content/"

/-- `output_file` (`main.py` 8). -/
def output_file : PyStr := S "ocr_output.txt"

/-- The filter of the loop (`main.py` 13):
`img_file.lower().endswith((".png", ".jpg", ".jpeg"))`. -/
def batch_is_image (name : PyStr) : Bool :=
  let low := name.map Char.toLower
  (S ".png").isSuffixOf low || (S ".jpg").isSuffixOf low
    || (S ".jpeg").isSuffixOf low

/-- The sequence of `f.write(...)` payloads of the loop (`main.py`
12–22), in order; `its` is the external
`pytesseract.image_to_string` composed with `PIL.Image.open`. -/
def batch_writes (its : PyStr → PyStr) : List PyStr → List PyStr
  | [] => []
  | f :: rest =>
      (if batch_is_image f then
        [S "--- Text from " ++ f ++ S " ---
",
         its (pyPathJoin folder_path f) ++ S "

"]
      else []) ++ batch_writes its rest

/-- The single output file of one batch run: its name, its open mode
(`"w"`, which truncates), and its final content (the concatenation of
the writes, since the file starts empty). -/
structure BatchResult where
  outputFile : PyStr
  mode : PyStr
  content : PyStr
deriving DecidableEq

/-- One run of `main.py` over the entries `files` of the input
folder. -/
def main_batch (its : PyStr → PyStr) (files : List PyStr) : BatchResult :=
  ⟨output_file, S "w", (batch_writes its files).flatten⟩

/-!  ## Properties of `pyStrip` -/

/-- A stripped string absorbs a further left strip. -/
theorem dropWhile_pyStrip (s : PyStr) :
    List.dropWhile isPyWS (pyStrip s) = pyStrip s := by
  rcases ht : pyStrip s with _ | ⟨a, t⟩
  · simp
  · have hpre : a :: t <+: List.dropWhile isPyWS s := by
      rw [← ht]
      exact List.rdropWhile_prefix isPyWS _
    obtain ⟨w, hw⟩ := hpre
    have hAid : List.dropWhile isPyWS (List.dropWhile isPyWS s)
        = List.dropWhile isPyWS s := List.dropWhile_idempotent isPyWS s
    have hna : ¬ isPyWS a = true := by
      intro hpa
      rw [← hw, List.cons_append, List.dropWhile_cons, if_pos hpa] at hAid
      have hlen : (List.dropWhile isPyWS (t ++ w)).length
          = (a :: (t ++ w)).length := by rw [hAid]
      have hle : (List.dropWhile isPyWS (t ++ w)).length ≤ (t ++ w).length :=
        (List.dropWhile_sublist isPyWS).length_le
      rw [List.length_cons] at hlen
      omega
    simp [List.dropWhile_cons, hna]

/-- Python's `strip` is idempotent. -/
theorem pyStrip_idempotent (s : PyStr) : pyStrip (pyStrip s) = pyStrip s := by
  show List.rdropWhile isPyWS (List.dropWhile isPyWS (pyStrip s)) = pyStrip s
  rw [dropWhile_pyStrip s]
  show List.rdropWhile isPyWS
      (List.rdropWhile isPyWS (List.dropWhile isPyWS s)) = pyStrip s
  rw [List.rdropWhile_idempotent]
  rfl

/-!  ## The flattener only emits stripped leaves, in DFS order -/

namespace extractTexts

/-- Joint induction: each of the four components of `rec` returns a
sublist of the stripped non-empty DFS leaves of its argument. -/
theorem rec_sublist_stripLeaves (v : PyVal) :
    (recV v).Sublist (stripLeaves (leavesV v)) := by
  refine recV.induct
    (fun v => (recV v).Sublist (stripLeaves (leavesV v)))
    (fun kvs => (recD kvs).Sublist (stripLeaves (leavesD kvs)))
    (fun xs => (recSeq xs).Sublist (stripLeaves (leavesL xs)))
    (fun xs => (recList xs).Sublist (stripLeaves (leavesL xs)))
    ?_ ?_ ?_ ?_ ?_ ?_ ?_ ?_ ?_ ?_ ?_ ?_ ?_ ?_ ?_ ?_ ?_ ?_ ?_ ?_ ?_ ?_ v
  -- str, strip empty
  · intro s h
    simp [recV, h]
  -- str, strip non-empty
  · intro s h
    rw [show recV (.str s) = [pyStrip s] from by simp [recV, h]]
    rw [show stripLeaves (leavesV (.str s)) = [pyStrip s] from by
      simp [leavesV, stripLeaves, List.filter_cons, h]]
  -- num
  · intro n
    simp [recV]
  -- list
  · intro xs ih
    simpa [recV, leavesV] using ih
  -- tuple
  · intro xs ih
    simpa [recV, leavesV] using ih
  -- dict
  · intro kvs ih
    simpa [recV, leavesV] using ih
  -- other
  · simp [recV]
  -- recD nil
  · simp [recD, leavesD]
  -- recD cons
  · intro f v rest ih ihr
    simpa [recD, leavesD, stripLeaves] using List.Sublist.append ih ihr
  -- (text, confidence), strip empty
  · intro s n h
    simp [recSeq, h]
  -- (text, confidence), strip non-empty
  · intro s n h
    rw [show recSeq [.str s, .num n] = [pyStrip s] from by simp [recSeq, h]]
    rw [show stripLeaves (leavesL [PyVal.str s, PyVal.num n]) = [pyStrip s] from by
      simp [leavesL, leavesV, stripLeaves, List.filter_cons, h]]
  -- second element is a list starting with a string, strip empty
  · intro hd t tl tl1 h
    simp [recSeq, h]
  -- second element is a list starting with a string, strip non-empty
  · intro hd t tl tl1 h
    rw [show recSeq (hd :: PyVal.list (PyVal.str t :: tl) :: tl1) = [pyStrip t] from by
      simp [recSeq, h]]
    rw [List.singleton_sublist]
    simp only [stripLeaves, List.mem_filter, List.mem_map]
    refine ⟨⟨t, ?_, rfl⟩, by simpa using h⟩
    simp [leavesL, leavesV]
  -- second element is a list not starting with a string
  · intro hd ys tl hne ih
    have heq : recSeq (hd :: PyVal.list ys :: tl) = recList ys := by
      rcases ys with _ | ⟨y, ys1⟩
      · simp [recSeq, recList]
      · rcases y with s1 | n1 | zs | zs | kvs1 | _
        · exact (hne s1 ys1 rfl).elim
        all_goals simp [recSeq]
    rw [heq]
    refine ih.trans (List.Sublist.filter _ (List.Sublist.map _ ?_))
    rw [show leavesL (hd :: PyVal.list ys :: tl)
        = leavesV hd ++ (leavesL ys ++ leavesL tl) from by simp [leavesL, leavesV]]
    exact (List.sublist_append_left _ _).trans (List.sublist_append_right _ _)
  -- second element is a tuple starting with a string, strip empty
  · intro hd t tl tl1 h
    simp [recSeq, h]
  -- second element is a tuple starting with a string, strip non-empty
  · intro hd t tl tl1 h
    rw [show recSeq (hd :: PyVal.tuple (PyVal.str t :: tl) :: tl1) = [pyStrip t] from by
      simp [recSeq, h]]
    rw [List.singleton_sublist]
    simp only [stripLeaves, List.mem_filter, List.mem_map]
    refine ⟨⟨t, ?_, rfl⟩, by simpa using h⟩
    simp [leavesL, leavesV]
  -- second element is a tuple not starting with a string
  · intro hd ys tl hne ih
    have heq : recSeq (hd :: PyVal.tuple ys :: tl) = recList ys := by
      rcases ys with _ | ⟨y, ys1⟩
      · simp [recSeq, recList]
      · rcases y with s1 | n1 | zs | zs | kvs1 | _
        · exact (hne s1 ys1 rfl).elim
        all_goals simp [recSeq]
    rw [heq]
    refine ih.trans (List.Sublist.filter _ (List.Sublist.map _ ?_))
    rw [show leavesL (hd :: PyVal.tuple ys :: tl)
        = leavesV hd ++ (leavesL ys ++ leavesL tl) from by simp [leavesL, leavesV]]
    exact (List.sublist_append_left _ _).trans (List.sublist_append_right _ _)
  -- fallback: walk the children
  · intro a sec rest h1 h2 h3 h4 h5 iha ihs ihr
    have heq : recSeq (a :: sec :: rest)
        = recV a ++ recV sec ++ recList rest := by
      rcases sec with s2 | n2 | ys | ys | kvs2 | _
      · -- second element is a string: only the fallback arm can fire
        rcases a with s1 | n1 | xs1 | xs1 | kvs1 | _ <;>
          rcases rest with _ | ⟨r, rs⟩ <;> simp [recSeq]
      · -- second element is a number
        rcases a with s1 | n1 | xs1 | xs1 | kvs1 | _ <;>
          rcases rest with _ | ⟨r, rs⟩
        · exact (h1 s1 n2 rfl rfl rfl).elim
        all_goals simp [recSeq]
      · exact (h3 ys rfl).elim
      · exact (h5 ys rfl).elim
      · rcases a with s1 | n1 | xs1 | xs1 | kvs1 | _ <;>
          rcases rest with _ | ⟨r, rs⟩ <;> simp [recSeq]
      · rcases a with s1 | n1 | xs1 | xs1 | kvs1 | _ <;>
          rcases rest with _ | ⟨r, rs⟩ <;> simp [recSeq]
    rw [heq]
    rw [show leavesL (a :: sec :: rest)
        = leavesV a ++ leavesV sec ++ leavesL rest from by simp [leavesL]]
    simp only [stripLeaves, List.map_append, List.filter_append]
    exact List.Sublist.append (List.Sublist.append iha ihs) ihr
  -- empty sequence
  · simp [recSeq, leavesL]
  -- one-element sequence
  · intro x ih
    simpa [recSeq, leavesL] using ih
  -- recList nil
  · simp [recList, leavesL]
  -- recList cons
  · intro x rest ih ihr
    simpa [recList, leavesL, stripLeaves] using List.Sublist.append ih ihr

end extractTexts

/-- `pyStrip` returns the empty string exactly when the input is all
whitespace. -/
theorem pyStrip_eq_nil_iff (s : PyStr) :
    pyStrip s = [] ↔ ∀ c ∈ s, isPyWS c = true := by
  unfold pyStrip
  rw [List.rdropWhile_eq_nil_iff]
  constructor
  · intro h c hc
    rcases List.mem_append.mp
        (by rw [List.takeWhile_append_dropWhile isPyWS s]; exact hc :
          c ∈ List.takeWhile isPyWS s ++ List.dropWhile isPyWS s) with h1 | h2
    · exact List.mem_takeWhile_imp h1
    · exact h c h2
  · intro h c hc
    exact h c ((List.dropWhile_sublist isPyWS).mem hc)

/-- C1: every element of the result of `extract_texts_from_predict` is a
non-empty string equal to its own whitespace-trimmed form, and the
elements appear in the order of the depth-first, left-to-right walk of
the input: the result is a sublist of the stripped non-empty leaf
sequence `stripLeaves (leavesV v)`. -/
theorem C1_extract_trimmed_nonempty_dfs_order (v : PyVal) :
    (∀ t ∈ extract_texts_from_predict v, t ≠ [] ∧ pyStrip t = t) ∧
    (extract_texts_from_predict v).Sublist (stripLeaves (leavesV v)) := by
  have hsub : (extract_texts_from_predict v).Sublist (stripLeaves (leavesV v)) :=
    (List.filter_sublist _).trans (extractTexts.rec_sublist_stripLeaves v)
  refine ⟨?_, hsub⟩
  intro t ht
  have htm : t ∈ stripLeaves (leavesV v) := List.Sublist.mem ht hsub
  simp only [stripLeaves, List.mem_filter, List.mem_map] at htm
  obtain ⟨⟨u, hu, rfl⟩, hne⟩ := htm
  refine ⟨?_, pyStrip_idempotent u⟩
  simpa [List.isEmpty_iff] using hne

/-- Witness for C1 at a concrete input: the element extracted from
`["a", ["b", "c"]]` is non-empty and its own trimmed form. -/
theorem C1_extract_trimmed_nonempty_dfs_order_witness :
    S "b" ∈ extract_texts_from_predict
      (.list [.str (S "a"), .list [.str (S "b"), .str (S "c")]]) ∧
    (S "b" ≠ [] ∧ pyStrip (S "b") = S "b") := by
  have hmem : S "b" ∈ extract_texts_from_predict
      (.list [.str (S "a"), .list [.str (S "b"), .str (S "c")]]) := by
    rw [show extract_texts_from_predict
        (.list [.str (S "a"), .list [.str (S "b"), .str (S "c")]]) = [S "b"] from by
      simp [extract_texts_from_predict, extractTexts.recV, extractTexts.recSeq, S]
      decide]
    simp
  exact ⟨hmem,
    (C1_extract_trimmed_nonempty_dfs_order
      (.list [.str (S "a"), .list [.str (S "b"), .str (S "c")]])).1 (S "b") hmem⟩

/-- C2: on a two-element list or tuple `(s, c)` with `s` a string and
`c` a number, `extract_texts_from_predict` returns `[s.strip()]` when
the strip is non-empty and `[]` when `s` is all whitespace; the
confidence `c` does not appear in the output. -/
theorem C2_pair_text_confidence (s : PyStr) (c : Int) :
    (extract_texts_from_predict (.list [.str s, .num c])
      = if ∀ ch ∈ s, isPyWS ch = true then [] else [pyStrip s]) ∧
    (extract_texts_from_predict (.tuple [.str s, .num c])
      = if ∀ ch ∈ s, isPyWS ch = true then [] else [pyStrip s]) := by
  have hrec : extractTexts.recSeq [PyVal.str s, PyVal.num c]
      = if (pyStrip s).isEmpty then [] else [pyStrip s] := by
    simp [extractTexts.recSeq]
  constructor <;>
  · show (extractTexts.recV _).filter _ = _
    rw [show extractTexts.recV _ = extractTexts.recSeq [PyVal.str s, PyVal.num c] from by
      simp [extractTexts.recV]]
    rw [hrec]
    by_cases hws : ∀ ch ∈ s, isPyWS ch = true
    · rw [if_pos hws]
      rw [show (pyStrip s).isEmpty = true from
        List.isEmpty_iff.mpr ((pyStrip_eq_nil_iff s).mpr hws)]
      simp
    · have hne : pyStrip s ≠ [] := fun h => hws ((pyStrip_eq_nil_iff s).mp h)
      rw [if_neg hws]
      rw [show (pyStrip s).isEmpty = false from by
        simpa [List.isEmpty_iff] using hne]
      simp [List.filter_cons, List.isEmpty_iff, hne]

/-- C9: the flattening is not exhaustive.  For any list whose second
element is a list or tuple beginning with a string, only that string's
strip is emitted (nothing at all when it is all whitespace); on the
concrete input `["a", ["b", "c"]]` only `"b"` is extracted although
`"a"` and `"c"` are string leaves of the structure. -/
theorem C9_leaves_omitted :
    (∀ (x : PyVal) (s : PyStr) (rest more : List PyVal),
      extract_texts_from_predict (PyVal.list (x :: PyVal.list (PyVal.str s :: rest) :: more))
        = if (pyStrip s).isEmpty then [] else [pyStrip s]) ∧
    (∀ (x : PyVal) (s : PyStr) (rest more : List PyVal),
      extract_texts_from_predict (PyVal.list (x :: PyVal.tuple (PyVal.str s :: rest) :: more))
        = if (pyStrip s).isEmpty then [] else [pyStrip s]) ∧
    (extract_texts_from_predict
        (.list [.str (S "a"), .list [.str (S "b"), .str (S "c")]]) = [S "b"] ∧
      S "a" ∈ leavesV (.list [.str (S "a"), .list [.str (S "b"), .str (S "c")]]) ∧
      S "c" ∈ leavesV (.list [.str (S "a"), .list [.str (S "b"), .str (S "c")]])) := by
  refine ⟨?_, ?_, ?_, ?_, ?_⟩
  · intro x s rest more
    show (extractTexts.recV _).filter _ = _
    rw [show extractTexts.recV (PyVal.list (x :: PyVal.list (PyVal.str s :: rest) :: more))
        = extractTexts.recSeq (x :: PyVal.list (PyVal.str s :: rest) :: more) from by
      simp [extractTexts.recV]]
    rw [show extractTexts.recSeq (x :: PyVal.list (PyVal.str s :: rest) :: more)
        = if (pyStrip s).isEmpty then [] else [pyStrip s] from by
      simp [extractTexts.recSeq]]
    by_cases h : (pyStrip s).isEmpty
    · simp [h]
    · simp only [h, if_neg]
      simp [List.filter_cons, h]
  · intro x s rest more
    show (extractTexts.recV _).filter _ = _
    rw [show extractTexts.recV (PyVal.list (x :: PyVal.tuple (PyVal.str s :: rest) :: more))
        = extractTexts.recSeq (x :: PyVal.tuple (PyVal.str s :: rest) :: more) from by
      simp [extractTexts.recV]]
    rw [show extractTexts.recSeq (x :: PyVal.tuple (PyVal.str s :: rest) :: more)
        = if (pyStrip s).isEmpty then [] else [pyStrip s] from by
      simp [extractTexts.recSeq]]
    by_cases h : (pyStrip s).isEmpty
    · simp [h]
    · simp only [h, if_neg]
      simp [List.filter_cons, h]
  · rw [show extract_texts_from_predict
        (.list [.str (S "a"), .list [.str (S "b"), .str (S "c")]]) = [S "b"] from by
      simp [extract_texts_from_predict, extractTexts.recV, extractTexts.recSeq, S]
      decide]
  · simp [leavesV, leavesL, S]
  · simp [leavesV, leavesL, S]

namespace extractTexts

/-- Fuel equal to the structural size always suffices: every recursive
call of `rec` is on a strictly smaller part of the structure. -/
theorem recFuel_sufficient (fuel : Nat) :
    (∀ v : PyVal, sizeOf v ≤ fuel → recVFuel fuel v = some (recV v)) ∧
    (∀ xs : List PyVal, sizeOf xs ≤ fuel → recSeqFuel fuel xs = some (recSeq xs)) ∧
    (∀ xs : List PyVal, sizeOf xs ≤ fuel → recListFuel fuel xs = some (recList xs)) ∧
    (∀ kvs : List (PyVal × PyVal), sizeOf kvs ≤ fuel → recDFuel fuel kvs = some (recD kvs)) := by
  induction fuel with
  | zero =>
    refine ⟨fun v h => ?_, fun xs h => ?_, fun xs h => ?_, fun kvs h => ?_⟩
    · cases v <;> simp at h
    · cases xs <;> simp at h
    · cases xs <;> simp at h
    · cases kvs <;> simp at h
  | succ fuel ih =>
    obtain ⟨ihV, ihS, ihL, ihD⟩ := ih
    refine ⟨fun v h => ?_, fun xs h => ?_, fun xs h => ?_, fun kvs h => ?_⟩
    · cases v with
      | str s => simp [recVFuel, recV]
      | num n => simp [recVFuel, recV]
      | list xs =>
        rw [recVFuel, recV]
        exact ihS xs (by simp at h; omega)
      | tuple xs =>
        rw [recVFuel, recV]
        exact ihS xs (by simp at h; omega)
      | dict kvs =>
        rw [recVFuel, recV]
        exact ihD kvs (by simp at h; omega)
      | other => simp [recVFuel, recV]
    · rcases xs with _ | ⟨a, _ | ⟨sec, rest⟩⟩
      · simp [recSeqFuel, recSeq]
      · rw [recSeqFuel, recSeq]
        exact ihV a (by simp at h; omega)
      · have hba : sizeOf a ≤ fuel := by simp at h; omega
        have hbr : sizeOf rest ≤ fuel := by simp at h; omega
        have Ha := ihV a hba
        have Hr := ihL rest hbr
        cases sec with
        | str s2 =>
          have Hs := ihV (PyVal.str s2) (by simp at h ⊢; omega)
          rcases a with s1 | n1 | xs1 | xs1 | kvs1 | _ <;>
            rcases rest with _ | ⟨r, rs⟩ <;>
            (simp only [recSeqFuel, recSeq, Ha, Hs, Hr]; try rfl)
        | num n2 =>
          have Hs := ihV (PyVal.num n2) (by simp at h ⊢; omega)
          rcases a with s1 | n1 | xs1 | xs1 | kvs1 | _ <;>
            rcases rest with _ | ⟨r, rs⟩ <;>
            (simp only [recSeqFuel, recSeq, Ha, Hs, Hr]; try rfl)
        | list ys =>
          rcases ys with _ | ⟨y, ys1⟩
          · simp only [recSeqFuel, recSeq]
            exact ihL [] (by simp at h ⊢; omega)
          · rcases y with t | n1 | zs | zs | kvs1 | _
            · simp [recSeqFuel, recSeq]
            all_goals
              (simp only [recSeqFuel, recSeq]
               exact ihL _ (by simp at h ⊢; omega))
        | tuple ys =>
          rcases ys with _ | ⟨y, ys1⟩
          · simp only [recSeqFuel, recSeq]
            exact ihL [] (by simp at h ⊢; omega)
          · rcases y with t | n1 | zs | zs | kvs1 | _
            · simp [recSeqFuel, recSeq]
            all_goals
              (simp only [recSeqFuel, recSeq]
               exact ihL _ (by simp at h ⊢; omega))
        | dict kvs2 =>
          have Hs := ihV (PyVal.dict kvs2) (by simp at h ⊢; omega)
          rcases a with s1 | n1 | xs1 | xs1 | kvs1 | _ <;>
            rcases rest with _ | ⟨r, rs⟩ <;>
            (simp only [recSeqFuel, recSeq, Ha, Hs, Hr]; try rfl)
        | other =>
          have Hs := ihV PyVal.other (by simp at h ⊢; omega)
          rcases a with s1 | n1 | xs1 | xs1 | kvs1 | _ <;>
            rcases rest with _ | ⟨r, rs⟩ <;>
            (simp only [recSeqFuel, recSeq, Ha, Hs, Hr]; try rfl)
    · rcases xs with _ | ⟨x, rest⟩
      · simp [recListFuel, recList]
      · rw [recListFuel, recList]
        rw [ihV x (by simp at h; omega), ihL rest (by simp at h; omega)]
        rfl
    · rcases kvs with _ | ⟨⟨k, v⟩, rest⟩
      · simp [recDFuel, recD]
      · rw [recDFuel, recD]
        rw [ihV v (by simp at h; omega), ihD rest (by simp at h; omega)]
        rfl

end extractTexts

/-- C8: `rec` terminates on every finitely nested input.  The
fuel-indexed transcription `recVFuel`, which charges one unit per
recursive call, never runs out of fuel when given the structural size
of the input: every call of `rec` is on a strictly smaller part of the
structure, and the fuel-free function `recV` is its (total) limit. -/
theorem C8_rec_terminates (v : PyVal) (fuel : Nat) (h : sizeOf v ≤ fuel) :
    extractTexts.recVFuel fuel v = some (extractTexts.recV v) :=
  (extractTexts.recFuel_sufficient fuel).1 v h

/-- Witness for C8 at a concrete input and fuel. -/
theorem C8_rec_terminates_witness :
    sizeOf (PyVal.list [PyVal.str (S "a"),
        PyVal.list [PyVal.str (S "b"), PyVal.str (S "c")]]) ≤ 1000 ∧
    extractTexts.recVFuel 1000
        (PyVal.list [PyVal.str (S "a"),
          PyVal.list [PyVal.str (S "b"), PyVal.str (S "c")]])
      = some (extractTexts.recV
          (PyVal.list [PyVal.str (S "a"),
            PyVal.list [PyVal.str (S "b"), PyVal.str (S "c")]])) :=
  ⟨by decide, C8_rec_terminates _ 1000 (by decide)⟩

/-- C3: a `POST /upload` request without a `file` part, with an empty
filename, or whose sanitized filename has a disallowed extension, gets
HTTP 400 with a JSON body carrying an `error` key, and no file is
saved. -/
theorem C3_upload_rejects_invalid (sf : PyStr → PyStr)
    (predict : PyStr → Except PyStr PyVal) (dumps : PyVal → PyStr)
    (images_dir : PyStr) (req : UploadRequest)
    (h : req.file = none ∨ ∃ fp, req.file = some fp ∧
        (fp.filename = [] ∨ allowed_filename (sf fp.filename) = false)) :
    (upload_file sf predict dumps images_dir req).1.status = 400 ∧
    (∃ kvs, (upload_file sf predict dumps images_dir req).1.body = Body.json kvs ∧
      S "error" ∈ kvs.map Prod.fst) ∧
    (upload_file sf predict dumps images_dir req).2 = [] := by
  obtain ⟨f⟩ := req
  rcases h with hnone | ⟨fp, hfp, hbad⟩
  · cases hnone
    exact ⟨rfl, ⟨_, rfl, by simp⟩, rfl⟩
  · cases hfp
    by_cases hemp : fp.filename = []
    · rw [show upload_file sf predict dumps images_dir ⟨some fp⟩
          = (⟨400, Body.json [(S "error", JVal.s (S "no selected file"))]⟩, []) from by
        simp [upload_file, hemp]]
      exact ⟨rfl, ⟨_, rfl, by simp⟩, rfl⟩
    · rcases hbad with hbad | hext
      · exact absurd hbad hemp
      · rw [show upload_file sf predict dumps images_dir ⟨some fp⟩
            = (⟨400, Body.json [(S "error", JVal.s
                (S "file extension not allowed. Allowed: .png .jpg .jpeg .tiff .bmp .gif"))]⟩,
               []) from by
          simp [upload_file, hemp, hext]]
        exact ⟨rfl, ⟨_, rfl, by simp⟩, rfl⟩

/-- Witness for C3: a request with no `file` part. -/
theorem C3_upload_rejects_invalid_witness :
    (upload_file (fun s => s) (fun _ => Except.ok PyVal.other) (fun _ => [])
        (S "output") ⟨none⟩).1.status = 400 ∧
    (∃ kvs, (upload_file (fun s => s) (fun _ => Except.ok PyVal.other) (fun _ => [])
        (S "output") ⟨none⟩).1.body = Body.json kvs ∧
      S "error" ∈ kvs.map Prod.fst) ∧
    (upload_file (fun s => s) (fun _ => Except.ok PyVal.other) (fun _ => [])
        (S "output") ⟨none⟩).2 = [] :=
  C3_upload_rejects_invalid _ _ _ _ _ (Or.inl rfl)

/-- C4 as stated is false: `download` answers a missing file with
`abort(404)`, whose body is the framework's default HTML error page,
not a JSON object. -/
theorem C4_download_404_not_json_counterexample :
    (download (fun s => s) (fun _ => false) (S "output") (S "missing.txt")).status = 404 ∧
    (download (fun s => s) (fun _ => false) (S "output") (S "missing.txt")).body
      = Body.htmlErrorPage 404 ∧
    (download (fun s => s) (fun _ => false) (S "output")
        (S "missing.txt")).body.isJson = false := by
  decide

/-- C4 (amended): every error response of the upload route is HTTP 400
or 500 with a JSON body carrying an `error` key; the download route's
not-found response is HTTP 404 whose body is the framework's default
error page, not JSON. -/
theorem C4_request_boundary_errors (sf : PyStr → PyStr)
    (predict : PyStr → Except PyStr PyVal) (dumps : PyVal → PyStr)
    (images_dir : PyStr) (req : UploadRequest)
    (fileExists : PyStr → Bool) (fname : PyStr)
    (hup : (upload_file sf predict dumps images_dir req).1.status ≠ 201)
    (hnf : fileExists (pyPathJoin images_dir (sf fname)) = false) :
    ((upload_file sf predict dumps images_dir req).1.status = 400 ∨
      (upload_file sf predict dumps images_dir req).1.status = 500) ∧
    (∃ kvs, (upload_file sf predict dumps images_dir req).1.body = Body.json kvs ∧
      S "error" ∈ kvs.map Prod.fst) ∧
    (download sf fileExists images_dir fname).status = 404 ∧
    (download sf fileExists images_dir fname).body.isJson = false := by
  have hdl : download sf fileExists images_dir fname = ⟨404, Body.htmlErrorPage 404⟩ := by
    simp [download, hnf]
  refine ⟨?_, ?_, by rw [hdl], by rw [hdl]; rfl⟩ <;>
  · obtain ⟨f⟩ := req
    rcases f with _ | fp
    · first
        | exact Or.inl rfl
        | exact ⟨_, rfl, by simp⟩
    · by_cases hemp : fp.filename = []
      · rw [show upload_file sf predict dumps images_dir ⟨some fp⟩
            = (⟨400, Body.json [(S "error", JVal.s (S "no selected file"))]⟩, []) from by
          simp [upload_file, hemp]]
        first
          | exact Or.inl rfl
          | exact ⟨_, rfl, by simp⟩
      · by_cases hext : allowed_filename (sf fp.filename)
        · rcases hocr : ocr_image_to_txt predict dumps (fun _ => true)
              (pyPathJoin images_dir (sf fp.filename)) none with e | run
          · rw [show upload_file sf predict dumps images_dir ⟨some fp⟩
                = (⟨500, Body.json [(S "error", JVal.s (S "ocr_failed")),
                    (S "detail", JVal.s e)]⟩,
                   [(pyPathJoin images_dir (sf fp.filename), fp.content)]) from by
              simp [upload_file, hemp, hext, hocr]]
            first
              | exact Or.inr rfl
              | exact ⟨_, rfl, by simp⟩
          · exfalso
            apply hup
            simp [upload_file, hemp, hext, hocr]
        · rw [show upload_file sf predict dumps images_dir ⟨some fp⟩
              = (⟨400, Body.json [(S "error", JVal.s
                  (S "file extension not allowed. Allowed: .png .jpg .jpeg .tiff .bmp .gif"))]⟩,
                 []) from by
            simp [upload_file, hemp, hext]]
          first
            | exact Or.inl rfl
            | exact ⟨_, rfl, by simp⟩

/-- Witness for the amended C4. -/
theorem C4_request_boundary_errors_witness :
    ((upload_file (fun s => s) (fun _ => Except.ok PyVal.other) (fun _ => [])
        (S "output") ⟨none⟩).1.status ≠ 201) ∧
    ((fun _ => false) (pyPathJoin (S "output")
        ((fun s : PyStr => s) (S "missing.txt"))) = false) ∧
    (((upload_file (fun s => s) (fun _ => Except.ok PyVal.other) (fun _ => [])
        (S "output") ⟨none⟩).1.status = 400 ∨
      (upload_file (fun s => s) (fun _ => Except.ok PyVal.other) (fun _ => [])
        (S "output") ⟨none⟩).1.status = 500) ∧
    (∃ kvs, (upload_file (fun s => s) (fun _ => Except.ok PyVal.other) (fun _ => [])
        (S "output") ⟨none⟩).1.body = Body.json kvs ∧
      S "error" ∈ kvs.map Prod.fst) ∧
    (download (fun s => s) (fun _ => false) (S "output") (S "missing.txt")).status = 404 ∧
    (download (fun s => s) (fun _ => false) (S "output")
        (S "missing.txt")).body.isJson = false) :=
  ⟨by decide, rfl,
    C4_request_boundary_errors _ _ _ _ _ _ _ (by decide) rfl⟩

/-- C6: on an existing image whose OCR call succeeds,
`ocr_image_to_txt` writes exactly one text file at the default or
given path — the extracted lines joined by newlines, or the debug dump
of the raw result when nothing was extracted — and returns that path
together with the extracted list. -/
theorem C6_ocr_writes_one_file (predict : PyStr → Except PyStr PyVal)
    (dumps : PyVal → PyStr) (fileExists : PyStr → Bool)
    (image_path : PyStr) (out? : Option PyStr) (result : PyVal)
    (hex : fileExists image_path = true)
    (hok : predict image_path = Except.ok result) :
    ocr_image_to_txt predict dumps fileExists image_path out?
      = Except.ok ⟨out?.getD (withSuffixTxt image_path),
          extract_texts_from_predict result,
          [(out?.getD (withSuffixTxt image_path),
            if (extract_texts_from_predict result).isEmpty then
              debugDump dumps result
            else List.intercalate (S "\n") (extract_texts_from_predict result))]⟩ := by
  by_cases he : (extract_texts_from_predict result).isEmpty
  · simp [ocr_image_to_txt, hex, hok, he, List.isEmpty_iff.mp he]
  · simp [ocr_image_to_txt, hex, hok, he]

/-- Witness for C6. -/
theorem C6_ocr_writes_one_file_witness :
    ((fun _ => true) (S "img.png") = true) ∧
    (((fun _ => Except.ok (PyVal.str (S "hi"))) : PyStr → Except PyStr PyVal)
        (S "img.png") = Except.ok (PyVal.str (S "hi"))) ∧
    ocr_image_to_txt (fun _ => Except.ok (PyVal.str (S "hi"))) (fun _ => [])
        (fun _ => true) (S "img.png") none
      = Except.ok ⟨(none : Option PyStr).getD (withSuffixTxt (S "img.png")),
          extract_texts_from_predict (PyVal.str (S "hi")),
          [((none : Option PyStr).getD (withSuffixTxt (S "img.png")),
            if (extract_texts_from_predict (PyVal.str (S "hi"))).isEmpty then
              debugDump (fun _ => []) (PyVal.str (S "hi"))
            else List.intercalate (S "\n")
              (extract_texts_from_predict (PyVal.str (S "hi"))))]⟩ :=
  ⟨rfl, rfl, C6_ocr_writes_one_file _ _ _ _ _ _ rfl rfl⟩

/-- C5: a successful upload answers HTTP 201 with the saved image
path, the text file path, `text_lines_count` equal to the number of
extracted lines, `text_preview` equal to the first 20 lines joined by
newlines, and a `warning` key exactly when nothing was extracted; the
files written are the image and the single text file. -/
theorem C5_upload_success_response (sf : PyStr → PyStr)
    (predict : PyStr → Except PyStr PyVal) (dumps : PyVal → PyStr)
    (images_dir : PyStr) (fp : FilePart) (result : PyVal)
    (h1 : fp.filename ≠ [])
    (h2 : allowed_filename (sf fp.filename) = true)
    (h3 : predict (pyPathJoin images_dir (sf fp.filename)) = Except.ok result) :
    upload_file sf predict dumps images_dir ⟨some fp⟩
      = (⟨201, Body.json
          ([(S "image", JVal.s (pyPathJoin images_dir (sf fp.filename))),
            (S "txt_file",
             JVal.s (withSuffixTxt (pyPathJoin images_dir (sf fp.filename)))),
            (S "text_lines_count",
             JVal.n (extract_texts_from_predict result).length),
            (S "text_preview",
             JVal.s (List.intercalate (S "\n")
               ((extract_texts_from_predict result).take 20)))]
            ++ (if (extract_texts_from_predict result).isEmpty then
                [(S "warning", JVal.s
                  (S "No text extracted — debug dump saved in txt file."))]
              else []))⟩,
         [(pyPathJoin images_dir (sf fp.filename), fp.content),
          (withSuffixTxt (pyPathJoin images_dir (sf fp.filename)),
           if (extract_texts_from_predict result).isEmpty then
             debugDump dumps result
           else List.intercalate (S "\n") (extract_texts_from_predict result))]) := by
  have hocr := C6_ocr_writes_one_file predict dumps (fun _ => true)
    (pyPathJoin images_dir (sf fp.filename)) none result rfl h3
  by_cases he : (extract_texts_from_predict result).isEmpty
  · simp [upload_file, h1, h2, hocr, he, List.isEmpty_iff.mp he]
  · simp [upload_file, h1, h2, hocr, he]

/-- Witness for C5. -/
theorem C5_upload_success_response_witness :
    ((S "a.png" : PyStr) ≠ []) ∧
    (allowed_filename ((fun s : PyStr => s) (S "a.png")) = true) ∧
    (((fun _ => Except.ok (PyVal.str (S "hi"))) : PyStr → Except PyStr PyVal)
        (pyPathJoin (S "output") ((fun s : PyStr => s) (S "a.png")))
      = Except.ok (PyVal.str (S "hi"))) ∧
    upload_file (fun s => s) (fun _ => Except.ok (PyVal.str (S "hi")))
        (fun _ => []) (S "output") ⟨some ⟨S "a.png", S "IMG"⟩⟩
      = (⟨201, Body.json
          ([(S "image", JVal.s (pyPathJoin (S "output") ((fun s : PyStr => s) (S "a.png")))),
            (S "txt_file",
             JVal.s (withSuffixTxt (pyPathJoin (S "output") ((fun s : PyStr => s) (S "a.png"))))),
            (S "text_lines_count",
             JVal.n (extract_texts_from_predict (PyVal.str (S "hi"))).length),
            (S "text_preview",
             JVal.s (List.intercalate (S "\n")
               ((extract_texts_from_predict (PyVal.str (S "hi"))).take 20)))]
            ++ (if (extract_texts_from_predict (PyVal.str (S "hi"))).isEmpty then
                [(S "warning", JVal.s
                  (S "No text extracted — debug dump saved in txt file."))]
              else []))⟩,
         [(pyPathJoin (S "output") ((fun s : PyStr => s) (S "a.png")), S "IMG"),
          (withSuffixTxt (pyPathJoin (S "output") ((fun s : PyStr => s) (S "a.png"))),
           if (extract_texts_from_predict (PyVal.str (S "hi"))).isEmpty then
             debugDump (fun _ => []) (PyVal.str (S "hi"))
           else List.intercalate (S "\n")
             (extract_texts_from_predict (PyVal.str (S "hi"))))]) :=
  ⟨by decide, by decide, rfl,
    C5_upload_success_response _ _ _ _ _ _ (by decide) (by decide) rfl⟩

/-- C10: when the OCR step fails after the image was saved, the
response is HTTP 500 with `error` and `detail` keys, and the saved
image write remains the (only) filesystem effect: the code performs no
deletion (the `unlink` is commented out in the source). -/
theorem C10_failed_ocr_keeps_saved_image (sf : PyStr → PyStr)
    (predict : PyStr → Except PyStr PyVal) (dumps : PyVal → PyStr)
    (images_dir : PyStr) (fp : FilePart) (e : PyStr)
    (h1 : fp.filename ≠ [])
    (h2 : allowed_filename (sf fp.filename) = true)
    (h3 : predict (pyPathJoin images_dir (sf fp.filename)) = Except.error e) :
    upload_file sf predict dumps images_dir ⟨some fp⟩
      = (⟨500, Body.json [(S "error", JVal.s (S "ocr_failed")),
            (S "detail", JVal.s e)]⟩,
         [(pyPathJoin images_dir (sf fp.filename), fp.content)]) := by
  have hocr : ocr_image_to_txt predict dumps (fun _ => true)
      (pyPathJoin images_dir (sf fp.filename)) none = Except.error e := by
    simp [ocr_image_to_txt, h3]
  simp [upload_file, h1, h2, hocr]

/-- Witness for C10. -/
theorem C10_failed_ocr_keeps_saved_image_witness :
    ((S "a.png" : PyStr) ≠ []) ∧
    (allowed_filename ((fun s : PyStr => s) (S "a.png")) = true) ∧
    (((fun _ => Except.error (S "boom")) : PyStr → Except PyStr PyVal)
        (pyPathJoin (S "output") ((fun s : PyStr => s) (S "a.png")))
      = Except.error (S "boom")) ∧
    upload_file (fun s => s) (fun _ => Except.error (S "boom"))
        (fun _ => []) (S "output") ⟨some ⟨S "a.png", S "IMG"⟩⟩
      = (⟨500, Body.json [(S "error", JVal.s (S "ocr_failed")),
            (S "detail", JVal.s (S "boom"))]⟩,
         [(pyPathJoin (S "output") ((fun s : PyStr => s) (S "a.png")), S "IMG")]) :=
  ⟨by decide, by decide, rfl,
    C10_failed_ocr_keeps_saved_image _ _ _ _ _ _ (by decide) (by decide) rfl⟩

/-- C7: one batch run produces exactly one output file,
`ocr_output.txt`, opened in (truncating) write mode, whose content is,
for each directory entry whose lowercased name ends in `.png`, `.jpg`
or `.jpeg`, a header line naming the image followed by its OCR text
and a blank line. -/
theorem C7_batch_one_consolidated_file (its : PyStr → PyStr)
    (files : List PyStr) :
    main_batch its files
      = ⟨S "ocr_output.txt", S "w",
         ((files.filter batch_is_image).map (fun f =>
            (S "--- Text from " ++ f ++ S " ---\n")
              ++ (its (pyPathJoin folder_path f) ++ S "\n\n"))).flatten⟩ := by
  have hc : ∀ fs : List PyStr, (batch_writes its fs).flatten
      = ((fs.filter batch_is_image).map (fun f =>
          (S "--- Text from " ++ f ++ S " ---\n")
            ++ (its (pyPathJoin folder_path f) ++ S "\n\n"))).flatten := by
    intro fs
    induction fs with
    | nil => simp [batch_writes]
    | cons f rest ih =>
      by_cases hf : batch_is_image f
      · simp [batch_writes, hf, List.filter_cons, ih]
      · simp [batch_writes, hf, List.filter_cons, ih]
  rw [show main_batch its files
      = ⟨output_file, S "w", (batch_writes its files).flatten⟩ from rfl]
  rw [hc files]
  rfl

end XBIZocr
